import Mathlib

/-!
Verification of the DevoDataProcessing pipeline
(`devo_assay/devodataprocessing.py`).

The Python source is shallowly embedded: every function below is a direct
translation of the corresponding Python function (names are kept), with
pandas column operations modelled as operations on Lean lists, Python
exceptions modelled by `Option` (`none` = the operation raises), and the
`float` measurement columns modelled by `ℚ` (IEEE rounding is not part of
any claim under examination).
-/

set_option maxHeartbeats 1000000

/-! ## Character-level utilities (models of Python string primitives) -/

/-- Model of the ASCII digit test used by Python's `\d` regex class and
`int()` parsing (non-ASCII digits are outside the modelled fragment). -/
def isDigitC (c : Char) : Bool := decide (48 ≤ c.toNat) && decide (c.toNat ≤ 57)

/-- Model of the whitespace class stripped by Python's `int()`/`float()`
conversions: space, tab, newline, carriage return, vertical tab, form feed. -/
def pyWS (c : Char) : Bool :=
  decide (c.toNat = 32) || decide (c.toNat = 9) || decide (c.toNat = 10) ||
  decide (c.toNat = 13) || decide (c.toNat = 11) || decide (c.toNat = 12)

/-- The decimal digit character for `m` (defined for `m < 10`). -/
def digitChar (m : Nat) : Char :=
  match m with
  | 0 => '0' | 1 => '1' | 2 => '2' | 3 => '3' | 4 => '4'
  | 5 => '5' | 6 => '6' | 7 => '7' | 8 => '8' | _ => '9'

/-- Numeric value of a run of decimal digit characters (most significant
first), as accumulated by a standard left fold. -/
def digitsVal (cs : List Char) : Nat :=
  cs.foldl (fun a c => 10 * a + (c.toNat - 48)) 0

/-- Decimal rendering of a natural number, most significant digit first
(auxiliary, fuel-driven). -/
def natDigitsAux : Nat → Nat → List Char
  | 0, _ => []
  | fuel+1, n => if n = 0 then [] else natDigitsAux fuel (n / 10) ++ [digitChar (n % 10)]

/-- Canonical decimal rendering of a natural number (what Python's string
formatting writes for a nonnegative integer). -/
def natDigits (n : Nat) : List Char :=
  if n = 0 then ['0'] else natDigitsAux (n + 1) n

/-- Accepts a nonempty all-digit character run and returns its value;
rejects anything else. -/
def parseDigits (cs : List Char) : Option Nat :=
  match cs with
  | [] => none
  | _ :: _ => if cs.all isDigitC then some (digitsVal cs) else none

/-- Model of Python's `str.strip()` as performed by `int()`/`float()`:
drop leading and trailing whitespace. -/
def pyStrip (cs : List Char) : List Char :=
  (((cs.dropWhile pyWS).reverse).dropWhile pyWS).reverse

/-- Sign handling of Python's `int()` after stripping: an optional single
leading `+` or `-` followed by a nonempty digit run.  (Underscore digit
grouping and non-ASCII digits are outside the modelled fragment.) -/
def pyIntCore (cs : List Char) : Option Int :=
  match cs with
  | [] => none
  | c :: rest =>
    if c = '+' then (parseDigits rest).map (fun n => (n : Int))
    else if c = '-' then (parseDigits rest).map (fun n => -(n : Int))
    else (parseDigits (c :: rest)).map (fun n => (n : Int))

/-- Model of Python's `int(s)` on a string: `none` models a raised
`ValueError`. -/
def pyInt (cs : List Char) : Option Int := pyIntCore (pyStrip cs)

/-- Model of Python's `location.split(' ')` (split on every single space,
keeping empty fields; the result is always nonempty). -/
def splitOnSpace : List Char → List (List Char)
  | [] => [[]]
  | c :: rest =>
    match splitOnSpace rest with
    | [] => [[]]
    | t :: ts => if c = ' ' then [] :: t :: ts else (c :: t) :: ts

/-- Model of Python's ASCII `str.upper()`. -/
def pyUpper (s : String) : String := String.mk (s.toList.map Char.toUpper)

/-! ## The location parser (`getplate`, `getrow`, `getcolumn`)

Python:
`getplate(location) = int(location.split(' ')[1])`,
`getrow(location) = location.split(' ')[4][0]`,
`getcolumn(location) = int(location.split(' ')[4][1:])`.
`none` models a raised `IndexError` or `ValueError`. -/

/-- `int(location.split(' ')[1])`. -/
def getplate (location : String) : Option Int :=
  match (splitOnSpace location.toList).get? 1 with
  | some tok => pyInt tok
  | none => none

/-- `location.split(' ')[4][0]`. -/
def getrow (location : String) : Option Char :=
  match (splitOnSpace location.toList).get? 4 with
  | some (c :: _) => some c
  | _ => none

/-- `int(location.split(' ')[4][1:])` (`List.tail` models the `[1:]` slice). -/
def getcolumn (location : String) : Option Int :=
  match (splitOnSpace location.toList).get? 4 with
  | some tok => pyInt tok.tail
  | none => none

/-- The character list of a well-formed location string
`"Plate {p} - Well {L}{c}"` with `p` and `c` written in decimal. -/
def wfLocList (p : Nat) (L : Char) (c : Nat) : List Char :=
  'P' :: 'l' :: 'a' :: 't' :: 'e' :: ' ' ::
    (natDigits p ++ ' ' :: '-' :: ' ' :: 'W' :: 'e' :: 'l' :: 'l' :: ' ' ::
      L :: natDigits c)

/-- A well-formed location string `"Plate {p} - Well {L}{c}"`. -/
def wfLoc (p : Nat) (L : Char) (c : Nat) : String := String.mk (wfLocList p L c)

/-! ## Barcode normalization (`fixbarcodes`)

Python (per cell): `int(x) if re.match(r'\d+', x) else x.upper()`.
`re.match` anchors at the start of the string, so it succeeds exactly when
the first character is a digit; `int(x)` may then raise (`none`). -/

/-- The per-cell lambda of `fixbarcodes`: `Sum.inl` is the integer branch,
`Sum.inr` the uppercased-string branch, `none` a raised `ValueError`. -/
def fixbarcode (x : String) : Option (Int ⊕ String) :=
  match x.toList with
  | [] => some (Sum.inr (pyUpper x))
  | c :: _ =>
    if isDigitC c then (pyInt x.toList).map Sum.inl
    else some (Sum.inr (pyUpper x))

/-- `mapOpt f l` maps a fallible cell operation over a column; any raised
exception aborts the whole column operation (pandas `.apply` semantics). -/
def mapOpt {α β : Type} (f : α → Option β) : List α → Option (List β)
  | [] => some []
  | x :: xs =>
    match f x, mapOpt f xs with
    | some y, some ys => some (y :: ys)
    | _, _ => none

/-- `fixbarcodes` applied to the `Sample Barcode` column. -/
def fixbarcodes (col : List String) : Option (List (Int ⊕ String)) :=
  mapOpt fixbarcode col

/-! ## Numeric coercion (`fixdatanumbers`) and unit conversion

Python: `pd.to_numeric(..., errors='coerce')` on the `AEB` and
`Concentration` columns; a cell that does not parse becomes NaN.  NaN is
modelled as `none` ("absent"); parsed values as exact rationals. -/

/-- Mantissa of a numeric literal — `digits`, `digits.digits`, `.digits`
or `digits.` — returned as (integer-part value, fraction value, fraction
length). -/
def mantParts (cs : List Char) : Option (Nat × Nat × Nat) :=
  match cs.span isDigitC with
  | (ip, []) => if ip.isEmpty then none else some (digitsVal ip, 0, 0)
  | (ip, '.' :: fp) =>
    if fp.all isDigitC && !(ip.isEmpty && fp.isEmpty) then
      some (digitsVal ip, digitsVal fp, fp.length)
    else none
  | _ => none

/-- Exponent part: optional sign followed by a nonempty digit run. -/
def parseExp (cs : List Char) : Option Int :=
  match cs with
  | '+' :: rest => (parseDigits rest).map (fun n => (n : Int))
  | '-' :: rest => (parseDigits rest).map (fun n => -(n : Int))
  | _ => (parseDigits cs).map (fun n => (n : Int))

/-- Unsigned numeric literal with optional `e`/`E` exponent, as
(integer part, fraction value, fraction length, exponent). -/
def numPartsU (cs : List Char) : Option (Nat × Nat × Nat × Int) :=
  match cs.span (fun c => !(c = 'e' || c = 'E')) with
  | (mant, []) => (mantParts mant).map (fun m => (m.1, m.2.1, m.2.2, (0 : Int)))
  | (mant, _ :: ex) =>
    match mantParts mant, parseExp ex with
    | some m, some e => some (m.1, m.2.1, m.2.2, e)
    | _, _ => none

/-- Signed numeric literal, decomposed into (negative?, integer part,
fraction value, fraction length, exponent).  This stage is purely
combinatorial, so concrete cells evaluate by `decide`. -/
def numParts (cs : List Char) : Option (Bool × Nat × Nat × Nat × Int) :=
  match cs with
  | '+' :: rest => (numPartsU rest).map (fun m => (false, m))
  | '-' :: rest => (numPartsU rest).map (fun m => (true, m))
  | _ => (numPartsU cs).map (fun m => (false, m))

/-- The rational value denoted by a decomposed numeric literal. -/
def ratOfParts : Bool × Nat × Nat × Nat × Int → ℚ
  | (neg, ip, fp, fl, e) =>
    (cond neg (-1) 1) * ((ip : ℚ) + (fp : ℚ) / 10 ^ fl) * (10 : ℚ) ^ e

/-- Model of `pd.to_numeric(cell, errors='coerce')` on one string cell:
strip whitespace, parse an optionally signed decimal literal; anything
else (including the empty string and the literal `"NaN"`) coerces to
absent, never raising. -/
def pdToNumeric (s : String) : Option ℚ :=
  (numParts (pyStrip s.toList)).map ratOfParts

/-- `fixdatanumbers` applied to the `AEB` and `Concentration` columns. -/
def fixdatanumbers (aeb conc : List String) :
    List (Option ℚ) × List (Option ℚ) :=
  (aeb.map pdToNumeric, conc.map pdToNumeric)

/-- `calculateconcentrationinfg` on the `Concentration` column:
`lambda x: x * 1000.0`, with NaN (`none`) propagating to NaN. -/
def calculateconcentrationinfg (conc : List (Option ℚ)) : List (Option ℚ) :=
  conc.map (Option.map (fun x => x * 1000))

/-! ## The data model: rows, templates, batches and plates

`Row` models one record of the working dataframe after the Field
Normalizer stage (the seven kept columns plus the parsed `Plate`, `Row`,
`Column` and computed `Concentration (fg/ml)` columns). -/

structure Row where
  sampleBarcode : Int ⊕ String
  location : String
  sampleType : String
  batchName : String
  aeb : Option ℚ
  concentration : Option ℚ
  flags : String
  plate : Int
  row : Char
  column : Int
  concentrationFg : Option ℚ
  deriving DecidableEq, Repr

/-- A template coordinate key: a row letter (a one-character Python
string) or a column number. -/
inductive Coord where
  | ofRow (c : Char)
  | ofCol (n : Int)
  deriving DecidableEq, Repr

/-- Model of a template dict `{'Axis': 'Row' | 'Column', key: value, ...}`.
Per the template format (spec section 6) the `Axis` item comes first, so
Python's `list(d.keys())[1:]` is exactly the list of `entries` keys; the
remaining insertion-ordered items are kept as an association list. -/
structure Template where
  axis : String
  entries : List (Coord × String)
  deriving DecidableEq, Repr

/-- First-match association lookup (Python dict lookup; with unique keys
this is dict access, and `alookup k l = none` is `k not in l`). -/
def alookup {α β : Type} [DecidableEq α] (k : α) : List (α × β) → Option β
  | [] => none
  | (k', v) :: rest => if k' = k then some v else alookup k rest

/-- One cell of `data[t['Axis']].apply(lambda x: t[x] if x in
list(t.keys())[1:] else None)`: select the row's coordinate on the
template's declared axis (`data['Row']` or `data['Column']`; the plate
data model carries exactly these two coordinate columns, so any other
axis name is a failed column selection, `none`), then look it up among
the template's non-axis keys, with Python `None` (= `some none`,
"unassigned") when the key is absent. -/
def templateLookup (t : Template) (r : Row) : Option (Option String) :=
  if t.axis = "Row" then some (alookup (Coord.ofRow r.row) t.entries)
  else if t.axis = "Column" then some (alookup (Coord.ofCol r.column) t.entries)
  else none

/-- A plate dataframe: the row records plus the three annotation columns
added by `applytemplate` (`none` = column not present yet). -/
structure DF where
  rows : List Row
  dilutionCol : Option (List (Option String))
  feedersCol : Option (List (Option String))
  replicateCol : Option (List (Option String))
  deriving DecidableEq, Repr

/-- The data transformation of `Plate.applytemplate` on a dataframe:
compute `data['Dilution']`, `data['Feeders']` and `data['Replicate']`
from the three templates; a failed column selection aborts (`none`). -/
def DF.applyT (df : DF) (dil fee rep : Template) : Option DF :=
  match mapOpt (templateLookup dil) df.rows, mapOpt (templateLookup fee) df.rows,
      mapOpt (templateLookup rep) df.rows with
  | some d, some f, some rp => some ⟨df.rows, some d, some f, some rp⟩
  | _, _, _ => none

/-- A plate: batch name, plate number and its own data subset. -/
structure Plate where
  batch : String
  plate_num : Int
  data : DF
  deriving DecidableEq, Repr

/-- `Plate.applytemplate`: computes the three annotation columns on a copy
of the plate's data and replaces the plate's `data` with the annotated
copy (the heap-level statement of the copying is `applytemplateS`
below). -/
def Plate.applytemplate (p : Plate) (dil fee rep : Template) : Option Plate :=
  (p.data.applyT dil fee rep).map (fun df => ⟨p.batch, p.plate_num, df⟩)

/-- A batch: name plus its exclusive row subset. -/
structure Batch where
  name : String
  data : List Row
  deriving DecidableEq, Repr

/-- Model of pandas `Series.unique()`: the distinct values in order of
first appearance. -/
def pdUnique {α : Type} [DecidableEq α] : List α → List α
  | [] => []
  | x :: xs => x :: (pdUnique xs).filter (fun y => decide (y ≠ x))

/-- `Batch.setplates`: one `Plate` per distinct `Plate` value occurring in
the batch's data, in first-seen order, each holding the matching row
subset (`self.data[self.data['Plate'] == plate_num]`). -/
def Batch.setplates (b : Batch) : List Plate :=
  (pdUnique (b.data.map Row.plate)).map
    (fun pn =>
      ⟨b.name, pn, ⟨b.data.filter (fun r => decide (r.plate = pn)), none, none, none⟩⟩)

/-- `extractbatches`: one `Batch` per distinct `Batch Name`, in first-seen
order, each holding the matching row subset
(`data[data['Batch Name'] == batch_name]`). -/
def extractbatches (rows : List Row) : List Batch :=
  (pdUnique (rows.map Row.batchName)).map
    (fun bn => ⟨bn, rows.filter (fun r => decide (r.batchName = bn))⟩)

/-- The coordinate of a row on a template's declared axis as the spec
describes it ("the row's `row` or `column` value"); used to state what
`applytemplate` assigns. -/
def coordAt (t : Template) (r : Row) : Coord :=
  if t.axis = "Row" then Coord.ofRow r.row else Coord.ofCol r.column

/-! ## The object-heap model for the copy/no-aliasing claim

pandas dataframes are heap objects: boolean-mask indexing
(`data[data['Batch Name'] == name]`) and `.copy()` allocate fresh
objects, column assignment (`data['Dilution'] = ...`) mutates an object
in place, and `self.data = data` rebinds a reference.  `ObjHeap` makes
the references explicit: `mem` maps allocated object ids (all below
`next`) to dataframe values, newer writes shadowing older ones. -/

structure PlateRef where
  batch : String
  plate_num : Int
  dataRef : Nat
  deriving DecidableEq, Repr

structure BatchRef where
  name : String
  dataRef : Nat
  plates : List PlateRef
  deriving DecidableEq, Repr

structure ObjHeap where
  next : Nat
  mem : List (Nat × DF)
  deriving DecidableEq, Repr

/-- Heap read: the value last written at object id `r`. -/
def ObjHeap.read (h : ObjHeap) (r : Nat) : Option DF := alookup r h.mem

/-- The annotation columns written by one template application, in write
order (dilution, then feeders, then replicate), to one dataframe. -/
def applytemplateWrite (h : ObjHeap) (p : PlateRef) (df0 : DF)
    (dil fee rep : Template) : Option (ObjHeap × PlateRef) :=
  match mapOpt (templateLookup dil) df0.rows, mapOpt (templateLookup fee) df0.rows,
      mapOpt (templateLookup rep) df0.rows with
  | some d, some f, some rp =>
    some (⟨h.next + 1,
      (h.next, ⟨df0.rows, some d, some f, some rp⟩) ::
      (h.next, ⟨df0.rows, some d, some f, df0.replicateCol⟩) ::
      (h.next, ⟨df0.rows, some d, df0.feedersCol, df0.replicateCol⟩) ::
      (h.next, df0) :: h.mem⟩,
      ⟨p.batch, p.plate_num, h.next⟩)
  | _, _, _ => none

/-- `Plate.applytemplate` with its heap effects explicit:
`data = self.data.copy()` allocates a fresh object `h.next` holding a
copy of the plate's dataframe; the three column assignments write only to
that fresh object; the final `self.data = data` rebinds the plate's
reference to it.  `none` models a raised exception (dangling reference or
failed column selection). -/
def applytemplateS (h : ObjHeap) (p : PlateRef) (dil fee rep : Template) :
    Option (ObjHeap × PlateRef) :=
  match ObjHeap.read h p.dataRef with
  | none => none
  | some df0 => applytemplateWrite h p df0 dil fee rep

/-! ## Concrete fixtures used by the witness theorems -/

def mkRow (bn : String) (pl : Int) (rw : Char) (co : Int) : Row :=
  ⟨Sum.inr "S1", "", "Specimen", bn, none, none, "", pl, rw, co, none⟩

def rowA1 : Row := mkRow "B1" 1 'A' 1

def rowB7 : Row := mkRow "B1" 1 'B' 7

def rowC3 : Row := mkRow "B1" 2 'C' 3

def rowD4 : Row := mkRow "B2" 1 'D' 4

def rows0 : List Row := [rowA1, rowB7, rowC3, rowD4]

def dil0 : Template := ⟨"Row", [(Coord.ofRow 'A', "1:4"), (Coord.ofRow 'B', "1:8")]⟩

def fee0 : Template := ⟨"Column", [(Coord.ofCol 1, "FeederOne"), (Coord.ofCol 7, "FeederTwo")]⟩

def rep0 : Template := ⟨"Row", [(Coord.ofRow 'A', "1")]⟩

def dfP : DF := ⟨[rowA1, rowB7], none, none, none⟩

def dfB : DF := ⟨[rowA1, rowB7, rowC3], none, none, none⟩

def plate0 : Plate := ⟨"B1", 1, dfP⟩

def dfP_dil : DF := ⟨[rowA1, rowB7], some [some "1:4", some "1:8"], none, none⟩

def dfP_fee : DF :=
  ⟨[rowA1, rowB7], some [some "1:4", some "1:8"],
    some [some "FeederOne", some "FeederTwo"], none⟩

def dfP_fin : DF :=
  ⟨[rowA1, rowB7], some [some "1:4", some "1:8"],
    some [some "FeederOne", some "FeederTwo"], some [some "1", none]⟩

def heap0 : ObjHeap := ⟨2, [(0, dfB), (1, dfP)]⟩

def plateRef0 : PlateRef := ⟨"B1", 1, 1⟩

def batchRef0 : BatchRef := ⟨"B1", 0, [plateRef0]⟩

def heap1 : ObjHeap :=
  ⟨3, [(2, dfP_fin), (2, dfP_fee), (2, dfP_dil), (2, dfP), (0, dfB), (1, dfP)]⟩

def plateRef1 : PlateRef := ⟨"B1", 1, 2⟩

/-! ## Facts about `alookup`, `mapOpt` and `pdUnique` -/


/-! ## Facts about the character utilities -/

theorem isDigitC_iff {c : Char} : isDigitC c = true ↔ 48 ≤ c.toNat ∧ c.toNat ≤ 57 := by
  simp [isDigitC]

theorem digitChar_isDigit {m : Nat} (h : m < 10) : isDigitC (digitChar m) = true := by
  interval_cases m <;> decide

theorem digitChar_toNat {m : Nat} (h : m < 10) : (digitChar m).toNat - 48 = m := by
  interval_cases m <;> decide

theorem isDigitC_ne_space {c : Char} (h : isDigitC c = true) : c ≠ ' ' := by
  intro e; rw [e] at h; exact absurd h (by decide)

theorem isDigitC_ne_plus {c : Char} (h : isDigitC c = true) : c ≠ '+' := by
  intro e; rw [e] at h; exact absurd h (by decide)

theorem isDigitC_ne_minus {c : Char} (h : isDigitC c = true) : c ≠ '-' := by
  intro e; rw [e] at h; exact absurd h (by decide)

theorem isDigitC_not_pyWS {c : Char} (h : isDigitC c = true) : pyWS c = false := by
  obtain ⟨h1, h2⟩ := isDigitC_iff.mp h
  simp only [pyWS, Bool.or_eq_false_iff, decide_eq_false_iff_not]
  omega

theorem natDigitsAux_zero (fuel : Nat) : natDigitsAux fuel 0 = [] := by
  cases fuel <;> simp [natDigitsAux]

theorem natDigitsAux_digits :
    ∀ fuel n, ∀ c ∈ natDigitsAux fuel n, isDigitC c = true := by
  intro fuel
  induction fuel with
  | zero => intro n c hc; simp [natDigitsAux] at hc
  | succ fuel ih =>
    intro n c hc
    by_cases hn : n = 0
    · rw [hn, natDigitsAux_zero] at hc; simp at hc
    · rw [natDigitsAux, if_neg hn] at hc
      rcases List.mem_append.mp hc with h | h
      · exact ih _ c h
      · rcases List.mem_singleton.mp h with rfl
        exact digitChar_isDigit (Nat.mod_lt _ (by omega))

theorem natDigitsAux_foldl :
    ∀ fuel n, n ≤ fuel → 0 < n → ∀ acc : Nat,
      List.foldl (fun a c => 10 * a + (c.toNat - 48)) acc (natDigitsAux fuel n) =
        acc * 10 ^ (natDigitsAux fuel n).length + n := by
  intro fuel
  induction fuel with
  | zero => intro n h1 h2; omega
  | succ fuel ih =>
    intro n h1 h2 acc
    have hn : n ≠ 0 := by omega
    rw [natDigitsAux, if_neg hn, List.foldl_append, List.length_append]
    simp only [List.foldl_cons, List.foldl_nil, List.length_cons, List.length_nil]
    rw [digitChar_toNat (Nat.mod_lt _ (by omega))]
    by_cases h10 : n < 10
    · have : n / 10 = 0 := by omega
      rw [this, natDigitsAux_zero]
      simp only [List.foldl_nil, List.length_nil, Nat.pow_succ, Nat.pow_zero]
      omega
    · have hd1 : n / 10 ≤ fuel := by
        have := Nat.div_lt_self h2 (by omega : 1 < 10); omega
      have hd2 : 0 < n / 10 := Nat.div_pos (by omega) (by omega)
      rw [ih _ hd1 hd2 acc, Nat.pow_succ, ← Nat.mul_assoc]
      generalize acc * 10 ^ (natDigitsAux fuel (n / 10)).length = k
      omega

theorem natDigits_all_digits (n : Nat) : ∀ c ∈ natDigits n, isDigitC c = true := by
  intro c hc
  unfold natDigits at hc
  by_cases hn : n = 0
  · rw [if_pos hn] at hc; rcases List.mem_singleton.mp hc with rfl; decide
  · rw [if_neg hn] at hc; exact natDigitsAux_digits _ _ c hc

theorem natDigits_ne_nil (n : Nat) : natDigits n ≠ [] := by
  unfold natDigits
  by_cases hn : n = 0
  · rw [if_pos hn]; simp
  · rw [if_neg hn, natDigitsAux, if_neg hn]; simp

theorem digitsVal_natDigits (n : Nat) : digitsVal (natDigits n) = n := by
  by_cases hn : n = 0
  · rw [hn]; decide
  · unfold natDigits digitsVal
    rw [if_neg hn, natDigitsAux_foldl (n + 1) n (by omega) (by omega) 0]
    simp

theorem parseDigits_eq_some {cs : List Char} (hne : cs ≠ [])
    (hall : cs.all isDigitC = true) : parseDigits cs = some (digitsVal cs) := by
  cases cs with
  | nil => exact absurd rfl hne
  | cons c cs => rw [parseDigits, if_pos hall]

theorem dropWhile_eq_self_of_none {p : Char → Bool} {l : List Char}
    (h : ∀ c ∈ l, p c = false) : l.dropWhile p = l := by
  cases l with
  | nil => rfl
  | cons c cs => rw [List.dropWhile_cons, h c (by simp), if_neg (by simp)]

theorem pyStrip_eq_self {cs : List Char} (h : ∀ c ∈ cs, pyWS c = false) :
    pyStrip cs = cs := by
  unfold pyStrip
  rw [dropWhile_eq_self_of_none h,
    dropWhile_eq_self_of_none (fun c hc => h c (List.mem_reverse.mp hc)),
    List.reverse_reverse]

theorem pyInt_digits {cs : List Char} (hne : cs ≠ [])
    (hall : cs.all isDigitC = true) : pyInt cs = some ((digitsVal cs : Int)) := by
  have hstrip : pyStrip cs = cs :=
    pyStrip_eq_self (fun c hc => isDigitC_not_pyWS (List.all_eq_true.mp hall c hc))
  unfold pyInt pyIntCore
  rw [hstrip]
  cases cs with
  | nil => exact absurd rfl hne
  | cons c cs' =>
    have hc : isDigitC c = true := List.all_eq_true.mp hall c (by simp)
    show (if c = '+' then (parseDigits cs').map (fun n => (n : Int))
      else if c = '-' then (parseDigits cs').map (fun n => -(n : Int))
      else (parseDigits (c :: cs')).map (fun n => (n : Int))) = _
    rw [if_neg (isDigitC_ne_plus hc), if_neg (isDigitC_ne_minus hc),
      parseDigits_eq_some hne hall]
    simp

theorem pyInt_natDigits (n : Nat) : pyInt (natDigits n) = some ((n : Int)) := by
  rw [pyInt_digits (natDigits_ne_nil n)
    (List.all_eq_true.mpr (natDigits_all_digits n)), digitsVal_natDigits]

/-! ## Facts about `splitOnSpace` -/

theorem splitOnSpace_ne_nil (cs : List Char) : splitOnSpace cs ≠ [] := by
  induction cs with
  | nil => simp [splitOnSpace]
  | cons c rest ih =>
    rw [splitOnSpace]
    cases h : splitOnSpace rest with
    | nil => exact absurd h ih
    | cons t ts => by_cases hc : c = ' ' <;> simp [hc]

theorem splitOnSpace_append (xs ys : List Char) (h : ∀ c ∈ xs, c ≠ ' ') :
    splitOnSpace (xs ++ ' ' :: ys) = xs :: splitOnSpace ys := by
  induction xs with
  | nil =>
    simp only [List.nil_append]
    rw [splitOnSpace]
    cases hy : splitOnSpace ys with
    | nil => exact absurd hy (splitOnSpace_ne_nil ys)
    | cons t ts => simp
  | cons x xs ih =>
    simp only [List.cons_append]
    rw [splitOnSpace, ih (fun c hc => h c (by simp [hc]))]
    simp [h x (by simp)]

theorem splitOnSpace_of_no_space (xs : List Char) (h : ∀ c ∈ xs, c ≠ ' ') :
    splitOnSpace xs = [xs] := by
  induction xs with
  | nil => rfl
  | cons x xs ih =>
    rw [splitOnSpace, ih (fun c hc => h c (by simp [hc]))]
    simp [h x (by simp)]

theorem splitOnSpace_wfLocList (p c : Nat) (L : Char) (hL : L ≠ ' ') :
    splitOnSpace (wfLocList p L c) =
      [['P', 'l', 'a', 't', 'e'], natDigits p, ['-'], ['W', 'e', 'l', 'l'],
        L :: natDigits c] := by
  have hp : ∀ ch ∈ natDigits p, ch ≠ ' ' :=
    fun ch hch => isDigitC_ne_space (natDigits_all_digits p ch hch)
  have hc : ∀ ch ∈ L :: natDigits c, ch ≠ ' ' := by
    intro ch hch
    rcases List.mem_cons.mp hch with rfl | hch
    · exact hL
    · exact isDigitC_ne_space (natDigits_all_digits c ch hch)
  show splitOnSpace
      (['P', 'l', 'a', 't', 'e'] ++ ' ' ::
        (natDigits p ++ ' ' ::
          (['-'] ++ ' ' ::
            (['W', 'e', 'l', 'l'] ++ ' ' :: (L :: natDigits c))))) = _
  rw [splitOnSpace_append _ _ (by decide), splitOnSpace_append _ _ hp,
    splitOnSpace_append _ _ (by decide), splitOnSpace_append _ _ (by decide),
    splitOnSpace_of_no_space _ hc]

theorem parseDigits_some_inv {cs : List Char} {m : Nat}
    (h : parseDigits cs = some m) :
    cs ≠ [] ∧ cs.all isDigitC = true ∧ m = digitsVal cs := by
  cases cs with
  | nil => exact absurd h (by simp [parseDigits])
  | cons c rest =>
    by_cases hall : (c :: rest).all isDigitC = true
    · rw [parseDigits, if_pos hall] at h
      exact ⟨by simp, hall, (Option.some_injective _ h).symm⟩
    · rw [parseDigits, if_neg hall] at h
      exact absurd h (by simp)

example : getplate "Plate 1 - Well A12" = some 1 := by decide
example : getrow "Plate 1 - Well A12" = some 'A' := by decide
example : getcolumn "Plate 1 - Well A12" = some 12 := by decide
example : wfLoc 1 'A' 12 = "Plate 1 - Well A12" := by decide

/-- C1: for every well-formed location string `"Plate {p} - Well {L}{c}"`
with integer `p ≥ 1`, letter `L` in A–H and integer `c` in 1–12 (whose
decimal rendering has one or two digits), the location parser returns
exactly the triple `(p, L, c)`: `getplate` returns `p`, `getrow` returns
`L` and `getcolumn` returns `c`. -/
theorem claim_C1_parse_location_round_trip (p : Nat) (L : Char) (c : Nat)
    (hp : 1 ≤ p) (hL : L ∈ ['A', 'B', 'C', 'D', 'E', 'F', 'G', 'H'])
    (hc1 : 1 ≤ c) (hc2 : c ≤ 12) :
    getplate (wfLoc p L c) = some ((p : Int)) ∧
    getrow (wfLoc p L c) = some L ∧
    getcolumn (wfLoc p L c) = some ((c : Int)) := by
  have hL' : L ≠ ' ' := by fin_cases hL <;> decide
  have htl : (wfLoc p L c).toList = wfLocList p L c := rfl
  have hsplit := splitOnSpace_wfLocList p c L hL'
  refine ⟨?_, ?_, ?_⟩
  · unfold getplate
    rw [htl, hsplit]
    show pyInt (natDigits p) = some ((p : Int))
    exact pyInt_natDigits p
  · unfold getrow
    rw [htl, hsplit]
    rfl
  · unfold getcolumn
    rw [htl, hsplit]
    show pyInt (natDigits c) = some ((c : Int))
    exact pyInt_natDigits c

/-- Witness for C1 at the double-digit column example
`"Plate 1 - Well A12"`. -/
theorem claim_C1_parse_location_round_trip_witness :
    getplate (wfLoc 1 'A' 12) = some 1 ∧
    getrow (wfLoc 1 'A' 12) = some 'A' ∧
    getcolumn (wfLoc 1 'A' 12) = some 12 :=
  claim_C1_parse_location_round_trip 1 'A' 12 (by decide) (by decide)
    (by decide) (by decide)

/-- C10: the location parser performs no range or keyword validation —
whenever the second space-token parses as an integer `p` and the fifth
space-token is any character `X` followed by a digit run with value `nd`,
all three accessors succeed and return `(p, X, nd)`, regardless of what
the third and fourth tokens are, whether `X` is in A–H, or whether `nd`
is in 1–12. -/
theorem claim_C10_no_range_or_keyword_validation (s : String)
    (t1 rest : List Char) (X : Char) (p : Int) (nd : Nat)
    (h1 : (splitOnSpace s.toList).get? 1 = some t1)
    (hp : pyInt t1 = some p)
    (h5 : (splitOnSpace s.toList).get? 4 = some (X :: rest))
    (hnd : parseDigits rest = some nd) :
    getplate s = some p ∧ getrow s = some X ∧
    getcolumn s = some ((nd : Int)) := by
  obtain ⟨hne, hall, hval⟩ := parseDigits_some_inv hnd
  refine ⟨?_, ?_, ?_⟩
  · unfold getplate; rw [h1]; exact hp
  · unfold getrow; rw [h5]
  · unfold getcolumn
    rw [h5]
    show pyInt rest = some ((nd : Int))
    rw [pyInt_digits hne hall, hval]

/-- Witness for C10 at the out-of-range location `"Plate 1 - Well Z99"`,
which parses to `(1, 'Z', 99)`. -/
theorem claim_C10_no_range_or_keyword_validation_witness :
    getplate "Plate 1 - Well Z99" = some 1 ∧
    getrow "Plate 1 - Well Z99" = some 'Z' ∧
    getcolumn "Plate 1 - Well Z99" = some 99 :=
  claim_C10_no_range_or_keyword_validation "Plate 1 - Well Z99"
    ['1'] ['9', '9'] 'Z' 1 99 (by decide) (by decide) (by decide) (by decide)

/-- C4 counterexample: `"Plate 1 - Well 51"` does not match the pattern
`"Plate <N> - Well <L><NN>"` (its well prefix `'5'` is not a letter) and
`"Plate 1 - Well A1 x"` has the wrong token count, yet on both every
accessor succeeds with a parsed value instead of failing, refuting the
claim that every non-matching string fails. -/
theorem claim_C4_counterexample :
    getplate "Plate 1 - Well 51" = some 1 ∧
    getrow "Plate 1 - Well 51" = some '5' ∧
    getcolumn "Plate 1 - Well 51" = some 1 ∧
    getplate "Plate 1 - Well A1 x" = some 1 ∧
    getrow "Plate 1 - Well A1 x" = some 'A' ∧
    getcolumn "Plate 1 - Well A1 x" = some 1 := by decide

/-- C4 (amended): the location parser fails (the error is surfaced to the
caller, modelled by `none`) when required tokens are missing — fewer than
two space-tokens for `getplate`, fewer than five for `getrow`/`getcolumn`,
an empty fifth token for `getrow` — or when the plate token is not an
integer literal, or when the fifth token's suffix after its first
character is not an integer literal; it performs no letter, keyword or
extra-token validation beyond this. -/
theorem claim_C4_amended_parse_failures :
    (∀ s : String, (splitOnSpace s.toList).length < 2 → getplate s = none) ∧
    (∀ s : String, (splitOnSpace s.toList).length < 5 →
      getrow s = none ∧ getcolumn s = none) ∧
    (∀ (s : String) (t1 : List Char),
      (splitOnSpace s.toList).get? 1 = some t1 → pyInt t1 = none →
      getplate s = none) ∧
    (∀ s : String, (splitOnSpace s.toList).get? 4 = some [] →
      getrow s = none) ∧
    (∀ (s : String) (t5 : List Char),
      (splitOnSpace s.toList).get? 4 = some t5 → pyInt t5.tail = none →
      getcolumn s = none) := by
  refine ⟨?_, ?_, ?_, ?_, ?_⟩
  · intro s h
    have h1 : (splitOnSpace s.toList).get? 1 = none :=
      List.get?_eq_none.mpr (by omega)
    unfold getplate; rw [h1]
  · intro s h
    have h4 : (splitOnSpace s.toList).get? 4 = none :=
      List.get?_eq_none.mpr (by omega)
    constructor
    · unfold getrow; rw [h4]
    · unfold getcolumn; rw [h4]
  · intro s t1 h1 hfail
    unfold getplate; rw [h1]; exact hfail
  · intro s h4
    unfold getrow; rw [h4]
  · intro s t5 h5 hfail
    unfold getcolumn; rw [h5]; exact hfail

/-- Witness for C4 (amended): a one-token string fails everywhere, a
non-numeric plate token fails `getplate`, and a one-character fifth token
fails `getcolumn`. -/
theorem claim_C4_amended_parse_failures_witness :
    getplate "Plate" = none ∧
    (getrow "Plate" = none ∧ getcolumn "Plate" = none) ∧
    getplate "Plate x - Well A1" = none ∧
    getrow "Plate 1 - Well " = none ∧
    getcolumn "Plate 1 - Well A" = none :=
  ⟨claim_C4_amended_parse_failures.1 "Plate" (by decide),
    claim_C4_amended_parse_failures.2.1 "Plate" (by decide),
    claim_C4_amended_parse_failures.2.2.1 "Plate x - Well A1" ['x']
      (by decide) (by decide),
    claim_C4_amended_parse_failures.2.2.2.1 "Plate 1 - Well " (by decide),
    claim_C4_amended_parse_failures.2.2.2.2 "Plate 1 - Well A" ['A']
      (by decide) (by decide)⟩

/-- C5 counterexample: `"123abc"` does not consist entirely of digits, so
the claim requires the uppercased string `"123ABC"`, but `fixbarcodes`
instead raises on it (the integer conversion fails), returning neither an
integer nor an uppercased string. -/
theorem claim_C5_counterexample :
    fixbarcode "123abc" = none ∧
    fixbarcode "123abc" ≠ some (Sum.inr (pyUpper "123abc")) ∧
    fixbarcodes ["123abc"] = none := by decide

/-- C5 (amended): `fixbarcodes` converts a barcode string to its integer
value whenever the entire string consists of one or more digits, and
returns the full string uppercased whenever the first character is not a
digit (in particular `"1" ↦ 1`, `"100" ↦ 100`, `"qc1" ↦ "QC1"`); a string
whose first character is a digit but which is not fully numeric raises
instead (e.g. `"123abc"`). -/
theorem claim_C5_amended_normalize_barcode :
    (∀ s : String, s.toList ≠ [] → s.toList.all isDigitC = true →
      fixbarcode s = some (Sum.inl ((digitsVal s.toList : Int)))) ∧
    (∀ (s : String) (c : Char) (rest : List Char),
      s.toList = c :: rest → isDigitC c = false →
      fixbarcode s = some (Sum.inr (pyUpper s))) ∧
    fixbarcode "1" = some (Sum.inl 1) ∧
    fixbarcode "100" = some (Sum.inl 100) ∧
    fixbarcode "qc1" = some (Sum.inr "QC1") ∧
    fixbarcode "123abc" = none := by
  refine ⟨?_, ?_, by decide, by decide, by decide, by decide⟩
  · intro s hne hall
    cases ht : s.toList with
    | nil => exact absurd ht hne
    | cons c rest =>
      rw [ht] at hall
      have hc : isDigitC c = true := List.all_eq_true.mp hall c (by simp)
      have hpy : pyInt (c :: rest) = some ((digitsVal (c :: rest) : Int)) :=
        pyInt_digits (by simp) hall
      unfold fixbarcode
      rw [ht]
      show (if isDigitC c = true then Option.map Sum.inl (pyInt (c :: rest))
        else some (Sum.inr (pyUpper s))) =
        some (Sum.inl ((digitsVal (c :: rest) : Int)))
      rw [if_pos hc, hpy, Option.map_some']
  · intro s c rest ht hc
    unfold fixbarcode
    rw [ht]
    show (if isDigitC c = true then Option.map Sum.inl (pyInt (c :: rest))
      else some (Sum.inr (pyUpper s))) = some (Sum.inr (pyUpper s))
    rw [if_neg (by simp [hc])]

/-- Witness for C5 (amended): the all-digit barcode `"7"` converts and the
letter-initial barcode `"a1"` uppercases. -/
theorem claim_C5_amended_normalize_barcode_witness :
    fixbarcode "7" = some (Sum.inl ((digitsVal ("7".toList) : Int))) ∧
    fixbarcode "a1" = some (Sum.inr (pyUpper "a1")) :=
  ⟨claim_C5_amended_normalize_barcode.1 "7" (by decide) (by decide),
    claim_C5_amended_normalize_barcode.2.1 "a1" 'a' ['1'] rfl (by decide)⟩

/-- C6: the barcode `"123abc"` begins with a digit, so `fixbarcodes`'
leading-digit match check passes and the value is routed into integer
conversion, which raises (`none`, a Python `ValueError` surfaced through
the whole column operation) — it neither uppercases nor truncates. -/
theorem claim_C6_digit_prefixed_barcode_raises :
    "123abc".toList.head? = some '1' ∧ isDigitC '1' = true ∧
    fixbarcode "123abc" = none ∧
    fixbarcodes ["123abc", "qc1"] = none := by decide

/-- C7: `fixdatanumbers` never raises on malformed numeric text — the
empty string, `"NaN"` and non-numeric text coerce to absent (`none`) and
valid numeric text parses to its numeric value; in particular the column
`["0.007", "NaN", ""]` maps to `[0.007, absent, absent]`.  (Totality is
by construction: `pdToNumeric` returns a value on every string.) -/
theorem claim_C7_coerce_numeric_never_raises :
    pdToNumeric "0.007" = some ((7 : ℚ) / 1000) ∧
    pdToNumeric "NaN" = none ∧
    pdToNumeric "" = none ∧
    pdToNumeric "abc" = none ∧
    pdToNumeric "1.2.3" = none ∧
    fixdatanumbers ["0.007", "NaN", ""] ["0.007", "NaN", ""] =
      ([some ((7 : ℚ) / 1000), none, none],
        [some ((7 : ℚ) / 1000), none, none]) := by
  have h7 : pdToNumeric "0.007" = some ((7 : ℚ) / 1000) := by
    have h : numParts (pyStrip ("0.007".toList)) = some (false, 0, 7, 3, 0) := by
      decide
    rw [pdToNumeric, h, Option.map_some']
    norm_num [ratOfParts]
  have hnan : pdToNumeric "NaN" = none := by
    have h : numParts (pyStrip ("NaN".toList)) = none := by decide
    rw [pdToNumeric, h, Option.map_none']
  have hemp : pdToNumeric "" = none := by
    have h : numParts (pyStrip ("".toList)) = none := by decide
    rw [pdToNumeric, h, Option.map_none']
  have habc : pdToNumeric "abc" = none := by
    have h : numParts (pyStrip ("abc".toList)) = none := by decide
    rw [pdToNumeric, h, Option.map_none']
  have hdots : pdToNumeric "1.2.3" = none := by
    have h : numParts (pyStrip ("1.2.3".toList)) = none := by decide
    rw [pdToNumeric, h, Option.map_none']
  exact ⟨h7, hnan, hemp, habc, hdots, by simp [fixdatanumbers, h7, hnan, hemp]⟩

/-- C8: `calculateconcentrationinfg` sets the fg/ml value of every cell to
exactly 1000 times its pg/ml value when present, and the fg/ml value is
absent exactly when the pg/ml value is absent. -/
theorem claim_C8_fg_is_thousandfold_pg (conc : List (Option ℚ)) (i : Nat) :
    (∀ q : ℚ, conc[i]? = some (some q) →
      (calculateconcentrationinfg conc)[i]? = some (some (q * 1000))) ∧
    (conc[i]? = some none →
      (calculateconcentrationinfg conc)[i]? = some none) ∧
    ((calculateconcentrationinfg conc)[i]? = some none ↔
      conc[i]? = some none) := by
  refine ⟨?_, ?_, ?_⟩
  · intro q h
    simp [calculateconcentrationinfg, List.getElem?_map, h]
  · intro h
    simp [calculateconcentrationinfg, List.getElem?_map, h]
  · simp only [calculateconcentrationinfg, List.getElem?_map]
    cases h : conc[i]? with
    | none => simp
    | some o => cases o <;> simp

theorem alookup_eq_none {α β : Type} [DecidableEq α] (k : α)
    (l : List (α × β)) : alookup k l = none ↔ k ∉ l.map Prod.fst := by
  induction l with
  | nil => simp [alookup]
  | cons e rest ih =>
    obtain ⟨k', v⟩ := e
    by_cases hk : k' = k
    · subst hk; simp [alookup]
    · rw [alookup, if_neg hk, ih]
      simp only [List.map_cons, List.mem_cons]
      constructor
      · intro h1 h2
        rcases h2 with h2 | h2
        · exact hk h2.symm
        · exact h1 h2
      · intro h1 h2
        exact h1 (Or.inr h2)

theorem mapOpt_eq_map {α β : Type} (f : α → Option β) (g : α → β)
    (l : List α) (h : ∀ x ∈ l, f x = some (g x)) :
    mapOpt f l = some (l.map g) := by
  induction l with
  | nil => rfl
  | cons x xs ih =>
    rw [mapOpt, h x (by simp), ih (fun y hy => h y (by simp [hy]))]
    rfl

theorem mem_pdUnique {α : Type} [DecidableEq α] {a : α} :
    ∀ {l : List α}, a ∈ pdUnique l ↔ a ∈ l := by
  intro l
  induction l with
  | nil => simp [pdUnique]
  | cons x xs ih =>
    simp only [pdUnique, List.mem_cons, List.mem_filter,
      decide_eq_true_eq, ih]
    tauto

theorem pdUnique_nodup {α : Type} [DecidableEq α] :
    ∀ l : List α, (pdUnique l).Nodup := by
  intro l
  induction l with
  | nil => simp [pdUnique]
  | cons x xs ih =>
    rw [pdUnique, List.nodup_cons]
    constructor
    · intro hx
      rcases List.mem_filter.mp hx with ⟨_, hne⟩
      simp at hne
    · exact List.Nodup.filter _ ih

theorem pdUnique_sublist {α : Type} [DecidableEq α] :
    ∀ l : List α, (pdUnique l).Sublist l := by
  intro l
  induction l with
  | nil => simp [pdUnique]
  | cons x xs ih =>
    rw [pdUnique]
    exact List.Sublist.cons₂ x ((List.filter_sublist _).trans ih)

theorem sum_counts_filter {α κ : Type} [DecidableEq α] [DecidableEq κ]
    (key : α → κ) (l : List α) (r : α) :
    ∀ ks : List κ, ks.Nodup →
      ((ks.map (fun k => (l.filter (fun a => decide (key a = k))).count r)).sum =
        if key r ∈ ks then l.count r else 0) := by
  intro ks
  induction ks with
  | nil => simp
  | cons k ks ih =>
    intro hnd
    rw [List.nodup_cons] at hnd
    simp only [List.map_cons, List.sum_cons, ih hnd.2]
    by_cases hk : key r = k
    · rw [List.count_filter (by simp [hk]), if_neg (hk ▸ hnd.1), if_pos (by simp [hk])]
      omega
    · have hzero : (l.filter (fun a => decide (key a = k))).count r = 0 := by
        apply List.count_eq_zero.mpr
        intro hmem
        rcases List.mem_filter.mp hmem with ⟨_, hdec⟩
        simp at hdec
        exact hk hdec
      rw [hzero]
      by_cases hks : key r ∈ ks <;>
        simp [hks, List.mem_cons, hk]

theorem join_filter_perm {α κ : Type} [DecidableEq α] [DecidableEq κ]
    (key : α → κ) (l : List α) :
    ((pdUnique (l.map key)).map
      (fun k => l.filter (fun a => decide (key a = k)))).flatten.Perm l := by
  apply List.perm_iff_count.mpr
  intro r
  rw [List.count_flatten, List.map_map]
  have hcomp :
      (List.count r ∘ fun k => l.filter (fun a => decide (key a = k))) =
        fun k => (l.filter (fun a => decide (key a = k))).count r := rfl
  rw [hcomp, sum_counts_filter key l r _ (pdUnique_nodup _)]
  by_cases hr : r ∈ l
  · rw [if_pos (mem_pdUnique.mpr (List.mem_map_of_mem key hr))]
  · have h0 : l.count r = 0 := List.count_eq_zero.mpr hr
    simp [h0]

/-- Witness for C8 on the column `[some 2, none]`. -/
theorem claim_C8_fg_is_thousandfold_pg_witness :
    (calculateconcentrationinfg [some (2 : ℚ), none])[0]? =
      some (some ((2 : ℚ) * 1000)) ∧
    (calculateconcentrationinfg [some (2 : ℚ), none])[1]? = some none :=
  ⟨(claim_C8_fg_is_thousandfold_pg [some (2 : ℚ), none] 0).1 2 rfl,
    (claim_C8_fg_is_thousandfold_pg [some (2 : ℚ), none] 1).2.1 rfl⟩
example : fixbarcode "qc1" = some (Sum.inr "QC1") := by decide
example : fixbarcode "100" = some (Sum.inl 100) := by decide
example : fixbarcode "123abc" = none := by decide
example : pdToNumeric "0.007" = some (7 / 1000) := by
  have h : numParts (pyStrip ("0.007".toList)) = some (false, 0, 7, 3, 0) := by decide
  rw [pdToNumeric, h, Option.map_some']
  norm_num [ratOfParts]
example : pdToNumeric "NaN" = none := by
  have h : numParts (pyStrip ("NaN".toList)) = none := by decide
  rw [pdToNumeric, h, Option.map_none']
example : pdToNumeric "" = none := by
  have h : numParts (pyStrip ("".toList)) = none := by decide
  rw [pdToNumeric, h, Option.map_none']
example : pdToNumeric "-1.5e2" = some (-150) := by
  have h : numParts (pyStrip ("-1.5e2".toList)) = some (true, 1, 5, 1, 2) := by decide
  rw [pdToNumeric, h, Option.map_some']
  norm_num [ratOfParts]

/-- C2: `applytemplate`, given dilution, feeder and replicate templates
each declaring its own axis ("Row" or "Column"), assigns to every row of
the plate, for each of the three fields independently against that
template's own declared axis, the template value keyed by that row's
coordinate on the declared axis — the `Axis` entry itself is not among
the looked-up keys — and assigns the unassigned marker (Python `None`,
here `none`) exactly when the coordinate is not a key of that
template. -/
theorem claim_C2_apply_template_per_axis (p : Plate) (dil fee rep : Template)
    (hd : dil.axis = "Row" ∨ dil.axis = "Column")
    (hf : fee.axis = "Row" ∨ fee.axis = "Column")
    (hr : rep.axis = "Row" ∨ rep.axis = "Column") :
    p.applytemplate dil fee rep =
      some ⟨p.batch, p.plate_num,
        ⟨p.data.rows,
          some (p.data.rows.map (fun r => alookup (coordAt dil r) dil.entries)),
          some (p.data.rows.map (fun r => alookup (coordAt fee r) fee.entries)),
          some (p.data.rows.map (fun r => alookup (coordAt rep r) rep.entries))⟩⟩ ∧
    (∀ t ∈ [dil, fee, rep], ∀ r : Row,
      alookup (coordAt t r) t.entries = none ↔
        coordAt t r ∉ t.entries.map Prod.fst) := by
  have hlk : ∀ t : Template, t.axis = "Row" ∨ t.axis = "Column" →
      ∀ r : Row, templateLookup t r = some (alookup (coordAt t r) t.entries) := by
    intro t ht r
    rcases ht with h | h <;> simp [templateLookup, coordAt, h]
  constructor
  · unfold Plate.applytemplate DF.applyT
    rw [mapOpt_eq_map _ _ _ (fun x _ => hlk dil hd x),
      mapOpt_eq_map _ _ _ (fun x _ => hlk fee hf x),
      mapOpt_eq_map _ _ _ (fun x _ => hlk rep hr x)]
    rfl
  · intro t _ r
    exact alookup_eq_none _ _

/-- Witness for C2 on a two-row plate with a row-keyed dilution template,
a column-keyed feeder template and a partial (row-keyed) replicate
template, whose second row is left unassigned. -/
theorem claim_C2_apply_template_per_axis_witness :
    plate0.applytemplate dil0 fee0 rep0 = some ⟨"B1", 1, dfP_fin⟩ := by
  have h := (claim_C2_apply_template_per_axis plate0 dil0 fee0 rep0
    (by decide) (by decide) (by decide)).1
  rw [h]
  decide

/-- C3: `extractbatches` followed by `Batch.setplates` is an exact,
deterministic partition of the input rows: the batch names are the
distinct `Batch Name` values in first-seen order (a duplicate-free
sublist of the input's name column), the concatenation of the batches'
data is a permutation of the input rows (every row in exactly one batch,
none lost or duplicated), and within each produced batch the plate
numbers are the distinct `Plate` values in first-seen order, the
concatenation of the plates' rows is a permutation of the batch's rows,
and the per-plate row counts sum to the batch's row count. -/
theorem claim_C3_partition_batches_and_plates (rows : List Row) :
    ((extractbatches rows).map Batch.name = pdUnique (rows.map Row.batchName)) ∧
    ((extractbatches rows).map Batch.name).Nodup ∧
    ((extractbatches rows).map Batch.name).Sublist (rows.map Row.batchName) ∧
    ((extractbatches rows).map Batch.data).flatten.Perm rows ∧
    (∀ b ∈ extractbatches rows,
      (b.setplates.map Plate.plate_num = pdUnique (b.data.map Row.plate)) ∧
      (b.setplates.map Plate.plate_num).Nodup ∧
      ((b.setplates.map (fun pl => pl.data.rows)).flatten.Perm b.data) ∧
      ((b.setplates.map (fun pl => pl.data.rows.length)).sum = b.data.length)) := by
  have hname : (extractbatches rows).map Batch.name =
      pdUnique (rows.map Row.batchName) := by
    rw [extractbatches, List.map_map]
    exact List.map_id _
  have hdata : (extractbatches rows).map Batch.data =
      (pdUnique (rows.map Row.batchName)).map
        (fun bn => rows.filter (fun r => decide (r.batchName = bn))) := by
    rw [extractbatches, List.map_map]
    rfl
  refine ⟨hname, ?_, ?_, ?_, ?_⟩
  · rw [hname]; exact pdUnique_nodup _
  · rw [hname]; exact pdUnique_sublist _
  · rw [hdata]; exact join_filter_perm Row.batchName rows
  · intro b _
    have h1 : b.setplates.map Plate.plate_num = pdUnique (b.data.map Row.plate) := by
      rw [Batch.setplates, List.map_map]
      exact List.map_id _
    have h2 : b.setplates.map (fun pl => pl.data.rows) =
        (pdUnique (b.data.map Row.plate)).map
          (fun pn => b.data.filter (fun r => decide (r.plate = pn))) := by
      rw [Batch.setplates, List.map_map]
      rfl
    have hperm : (b.setplates.map (fun pl => pl.data.rows)).flatten.Perm b.data := by
      rw [h2]; exact join_filter_perm Row.plate b.data
    refine ⟨h1, ?_, hperm, ?_⟩
    · rw [h1]; exact pdUnique_nodup _
    · have hlen := hperm.length_eq
      rw [List.length_flatten, List.map_map] at hlen
      exact hlen

/-- Witness for C3 on four rows spanning two batch names, the first batch
spanning two plate numbers: the per-plate row counts of batch `"B1"` sum
to its row count. -/
theorem claim_C3_partition_batches_and_plates_witness :
    ((Batch.mk "B1" [rowA1, rowB7, rowC3]).setplates.map
      (fun pl => pl.data.rows.length)).sum =
      (Batch.mk "B1" [rowA1, rowB7, rowC3]).data.length :=
  ((claim_C3_partition_batches_and_plates rows0).2.2.2.2
    ⟨"B1", [rowA1, rowB7, rowC3]⟩ (by decide)).2.2.2

/-- C9: `Plate.applytemplate` operates on an owned copy: a successful run
allocates one fresh object and rebinds only the calling plate's data
reference to it — every previously allocated object, in particular the
batch's underlying dataframe and every sibling plate's row subset, reads
back unchanged — and the fresh object holds exactly the annotated copy
(`DF.applyT`) of the calling plate's previous data. -/
theorem claim_C9_applytemplate_owns_copy (h : ObjHeap) (b : BatchRef)
    (p : PlateRef) (dil fee rep : Template) (h' : ObjHeap) (p' : PlateRef)
    (hb : b.dataRef < h.next) (hpl : ∀ q ∈ b.plates, q.dataRef < h.next)
    (hrun : applytemplateS h p dil fee rep = some (h', p')) :
    (∀ r : Nat, r < h.next → ObjHeap.read h' r = ObjHeap.read h r) ∧
    ObjHeap.read h' b.dataRef = ObjHeap.read h b.dataRef ∧
    (∀ q ∈ b.plates, ObjHeap.read h' q.dataRef = ObjHeap.read h q.dataRef) ∧
    p'.dataRef = h.next ∧ p'.batch = p.batch ∧ p'.plate_num = p.plate_num ∧
    (ObjHeap.read h p.dataRef).bind (fun df => df.applyT dil fee rep) =
      ObjHeap.read h' p'.dataRef := by
  rw [applytemplateS] at hrun
  rcases hdf : ObjHeap.read h p.dataRef with _ | df0 <;> rw [hdf] at hrun
  · exact Option.noConfusion hrun
  replace hrun : applytemplateWrite h p df0 dil fee rep = some (h', p') := hrun
  rw [applytemplateWrite.eq_def] at hrun
  rcases hd : mapOpt (templateLookup dil) df0.rows with _ | d <;> rw [hd] at hrun
  · exact Option.noConfusion hrun
  rcases hf2 : mapOpt (templateLookup fee) df0.rows with _ | f <;> rw [hf2] at hrun
  · exact Option.noConfusion hrun
  rcases hr2 : mapOpt (templateLookup rep) df0.rows with _ | rp <;> rw [hr2] at hrun
  · exact Option.noConfusion hrun
  have hrun2 :
      some ((⟨h.next + 1,
        (h.next, ⟨df0.rows, some d, some f, some rp⟩) ::
        (h.next, ⟨df0.rows, some d, some f, df0.replicateCol⟩) ::
        (h.next, ⟨df0.rows, some d, df0.feedersCol, df0.replicateCol⟩) ::
        (h.next, df0) :: h.mem⟩ : ObjHeap),
        (⟨p.batch, p.plate_num, h.next⟩ : PlateRef)) = some (h', p') := hrun
  injection hrun2 with hpair
  injection hpair with hh hp
  subst hh
  subst hp
  have hframe : ∀ r : Nat, r < h.next →
      ObjHeap.read
        ⟨h.next + 1,
          (h.next, ⟨df0.rows, some d, some f, some rp⟩) ::
          (h.next, ⟨df0.rows, some d, some f, df0.replicateCol⟩) ::
          (h.next, ⟨df0.rows, some d, df0.feedersCol, df0.replicateCol⟩) ::
          (h.next, df0) :: h.mem⟩ r = ObjHeap.read h r := by
    intro r hrlt
    have hne : ¬(h.next = r) := by omega
    simp [ObjHeap.read, alookup, hne]
  refine ⟨hframe, hframe _ hb, fun q hq => hframe _ (hpl q hq), rfl, rfl, rfl, ?_⟩
  show df0.applyT dil fee rep = ObjHeap.read _ h.next
  rw [DF.applyT.eq_def, hd, hf2, hr2]
  simp [ObjHeap.read, alookup]

/-- Witness for C9 on a two-object heap (a batch dataframe at id 0 and
its plate's dataframe at id 1): after applying the templates the batch's
dataframe reads back unchanged. -/
theorem claim_C9_applytemplate_owns_copy_witness :
    ObjHeap.read heap1 batchRef0.dataRef = ObjHeap.read heap0 batchRef0.dataRef :=
  (claim_C9_applytemplate_owns_copy heap0 batchRef0 plateRef0 dil0 fee0 rep0
    heap1 plateRef1 (by decide) (by decide) (by decide)).2.1
